import Mathlib

/-!
Verification of the OT (operational transformation) collaborative editor:
the operation algebra (`transform`, `apply`, `compose`, `transformAgainst`),
the change detector (`detectChange`), and the relay's per-document session
store (`server.js` message handlers), embedded shallowly in Lean.

Text is modelled as a sequence of code units (`List Char`); positions and
lengths are modelled as `Int`, matching the JavaScript `number` fields of
the source, with JS `String.prototype.substring` clamping made explicit.
-/

namespace OT

/-- Document text: an opaque sequence of code units. -/
abbrev Str := List Char

/-- Embeds `InsertOperation` from `operations.ts`: `{id, userId, timestamp, position, text}`. -/
structure InsertOp where
  id : String
  userId : String
  timestamp : Int
  position : Int
  text : Str
deriving DecidableEq, Repr

/-- Embeds `DeleteOperation` from `operations.ts`: `{id, userId, timestamp, position, length}`. -/
structure DeleteOp where
  id : String
  userId : String
  timestamp : Int
  position : Int
  length : Int
deriving DecidableEq, Repr

/-- The discriminated union `Operation = InsertOperation | DeleteOperation`. -/
inductive Operation where
  | insert (op : InsertOp)
  | delete (op : DeleteOp)
deriving DecidableEq, Repr

/-- JS string comparison `a < b`: lexicographic over the sequence of code
units (the same opaque units the document content is made of). -/
def jsStrLt (a b : String) : Prop := a.data < b.data

instance jsStrLtDecidable (a b : String) : Decidable (jsStrLt a b) :=
  inferInstanceAs (Decidable (a.data < b.data))

/-- JS `String.prototype.substring(a, b)`: each index is clamped into
`[0, len]` (negative values to `0`, values above the length to the length),
and the smaller clamped index is used as the start. -/
def jsSubstring (s : Str) (a b : Int) : Str :=
  let n := s.length
  let a' := min a.toNat n
  let b' := min b.toNat n
  (s.take (max a' b')).drop (min a' b')

/-- Embeds `OTEngine.applyInsert`: `text.substring(0, position) + op.text + text.substring(position)`. -/
def applyInsert (text : Str) (op : InsertOp) : Str :=
  let before := jsSubstring text 0 op.position
  let after := jsSubstring text op.position (text.length : Int)
  before ++ op.text ++ after

/-- Embeds `OTEngine.applyDelete`: `text.substring(0, position) + text.substring(position + length)`. -/
def applyDelete (text : Str) (op : DeleteOp) : Str :=
  let before := jsSubstring text 0 op.position
  let after := jsSubstring text (op.position + op.length) (text.length : Int)
  before ++ after

/-- Embeds `OTEngine.apply`: dispatch on the operation's variant. -/
def apply (text : Str) (operation : Operation) : Str :=
  match operation with
  | .insert op => applyInsert text op
  | .delete op => applyDelete text op

/-- Embeds `OTEngine.transformInsertInsert`: positions shift by the other insert's
text length when the other insert is strictly left, or at the same position
with a lexicographically smaller `userId` (the deterministic tie-break). -/
def transformInsertInsert (op1 op2 : InsertOp) : InsertOp :=
  if op2.position < op1.position then
    { op1 with position := op1.position + (op2.text.length : Int) }
  else if op2.position = op1.position then
    if jsStrLt op2.userId op1.userId then
      { op1 with position := op1.position + (op2.text.length : Int) }
    else op1
  else op1

/-- Embeds `OTEngine.transformInsertDelete`: a delete entirely before the insert
shifts it left; a delete straddling the insert position snaps the insert to
the deletion point; a delete at or after the insert leaves it unchanged. -/
def transformInsertDelete (op1 : InsertOp) (op2 : DeleteOp) : InsertOp :=
  if op2.position + op2.length ≤ op1.position then
    { op1 with position := op1.position - op2.length }
  else if op2.position < op1.position then
    { op1 with position := op2.position }
  else op1

/-- Embeds `OTEngine.transformDeleteInsert`: an insert at or before the delete
shifts it right; an insert strictly inside the deleted range extends the
delete's length; an insert after the range leaves it unchanged. -/
def transformDeleteInsert (op1 : DeleteOp) (op2 : InsertOp) : DeleteOp :=
  if op2.position ≤ op1.position then
    { op1 with position := op1.position + (op2.text.length : Int) }
  else if op2.position < op1.position + op1.length then
    { op1 with length := op1.length + (op2.text.length : Int) }
  else op1

/-- Embeds `OTEngine.transformDeleteDelete`: disjoint deletes shift or stand;
overlapping deletes subtract the overlap, repositioning when the other
delete starts first. -/
def transformDeleteDelete (op1 op2 : DeleteOp) : DeleteOp :=
  if op2.position + op2.length ≤ op1.position then
    { op1 with position := op1.position - op2.length }
  else if op2.position ≥ op1.position + op1.length then
    op1
  else if op2.position ≤ op1.position then
    let overlap := min (op2.position + op2.length - op1.position) op1.length
    { op1 with position := op2.position, length := op1.length - overlap }
  else
    let overlap := min (op1.position + op1.length - op2.position) op2.length
    { op1 with length := op1.length - overlap }

/-- Embeds `OTEngine.transform`: dispatch over the four variant combinations. -/
def transform (op1 op2 : Operation) : Operation :=
  match op1, op2 with
  | .insert a, .insert b => .insert (transformInsertInsert a b)
  | .insert a, .delete b => .insert (transformInsertDelete a b)
  | .delete a, .insert b => .delete (transformDeleteInsert a b)
  | .delete a, .delete b => .delete (transformDeleteDelete a b)

/-- Embeds `OTEngine.transformAgainst`: the source's `for` loop over `operations`,
threading the accumulator `transformed`. -/
def transformAgainst (op : Operation) (operations : List Operation) : Operation :=
  match operations with
  | [] => op
  | otherOp :: rest => transformAgainst (transform op otherOp) rest

/-- Embeds `OTEngine.compose`: merges two consecutive same-user inserts whose
positions abut, or two same-user deletes at the same position; every other
pair returns `null`. -/
def compose (op1 op2 : Operation) : Option Operation :=
  match op1, op2 with
  | .insert a, .insert b =>
    if a.position + (a.text.length : Int) = b.position ∧ a.userId = b.userId then
      some (.insert { a with text := a.text ++ b.text })
    else none
  | .delete a, .delete b =>
    if a.position = b.position ∧ a.userId = b.userId then
      some (.delete { a with length := a.length + b.length })
    else none
  | _, _ => none

/-! ### Change detector (`operations.ts`) -/

/-- Embeds `createInsertOperation` from `operations.ts`. The source generates the
`id` via `Date.now()`/`Math.random()` and the timestamp via `Date.now()`;
both are environment inputs here, passed as the `newId` and `now` arguments. -/
def createInsertOperation (newId : String) (now : Int) (userId : String)
    (position : Int) (text : Str) : InsertOp :=
  { id := newId, userId := userId, position := position, text := text, timestamp := now }

/-- Embeds `createDeleteOperation` from `operations.ts`; `newId` and `now` are the
impure id/timestamp inputs, as in `createInsertOperation`. -/
def createDeleteOperation (newId : String) (now : Int) (userId : String)
    (position : Int) (length : Int) : DeleteOp :=
  { id := newId, userId := userId, position := position, length := length, timestamp := now }

/-- Embeds `detectChange` from `operations.ts`: diff `oldText` against `newText`
using the caret position after the edit. A pure growth becomes an insert, a
pure shrink a delete, and equal-length replacement (or no change) yields
`null`. -/
def detectChange (newId : String) (now : Int) (oldText newText : Str)
    (cursorPosition : Int) (userId : String) : Option Operation :=
  if oldText = newText then none
  else
    let oldLen : Int := oldText.length
    let newLen : Int := newText.length
    if oldLen < newLen then
      let insertedLength := newLen - oldLen
      let position := cursorPosition - insertedLength
      let insertedText := jsSubstring newText position cursorPosition
      some (.insert (createInsertOperation newId now userId position insertedText))
    else if newLen < oldLen then
      let deletedLength := oldLen - newLen
      some (.delete (createDeleteOperation newId now userId cursorPosition deletedLength))
    else none

/-! ### Relay / session store (`server/src/server.js`) -/

/-- A `User` record as created by `addUser` in `server.js`. -/
structure ServerUser where
  id : String
  name : String
  color : String
  cursor : Int
deriving DecidableEq, Repr

/-- An entry of a document's `operations` log: the submitted operation
spread together with `serverVersion` and `serverTimestamp`
(`server.js`, the `operation` handler). -/
structure StampedOp where
  op : Operation
  serverVersion : Int
  serverTimestamp : Int
deriving DecidableEq, Repr

/-- A document as created by `getDocument` in `server.js`:
`{id, content, version, operations, users}`; `users` is the roster map,
keyed by socket id. -/
structure ServerDoc where
  id : String
  content : Str
  version : Int
  operations : List StampedOp
  users : List (String × ServerUser)
deriving DecidableEq, Repr

/-- The in-memory `documents` map of `server.js`, as an association list
keyed by document id. -/
abbrev DocMap := List (String × ServerDoc)

/-- The fresh document `getDocument` creates on first reference:
empty content, version `0`, empty log, empty roster. -/
def emptyDoc (documentId : String) : ServerDoc :=
  { id := documentId, content := [], version := 0, operations := [], users := [] }

/-- Embeds `getDocument`: look the id up in the map, creating (and inserting) the
fresh document when absent; returns the possibly-extended map and the
document. -/
def getDocument (documents : DocMap) (documentId : String) : DocMap × ServerDoc :=
  match documents.lookup documentId with
  | some doc => (documents, doc)
  | none => ((documentId, emptyDoc documentId) :: documents, emptyDoc documentId)

/-- Write a document back under its id (the JS code mutates the mapped
document in place; here the map entry is replaced). -/
def setDocument (documents : DocMap) (documentId : String) (doc : ServerDoc) : DocMap :=
  documents.map (fun p => if p.1 = documentId then (documentId, doc) else p)

/-- Events the relay emits to clients (`server.js`). -/
inductive ServerEvent where
  | documentState (content : Str) (version : Int) (users : List ServerUser)
  | operationEvent (operation : Operation) (version : Int)
  | userJoined (user : ServerUser) (users : List ServerUser)
  | userLeft (userId : String) (users : List ServerUser)
  | cursorUpdate (userId : String) (position : Int)
deriving DecidableEq, Repr

/-- Embeds `broadcastToDocument`: send `ev` to every member of the document except
`excludeSocketId`; no document means no sends. Result: the list of
`(socketId, event)` emissions. -/
def broadcastToDocument (documents : DocMap) (documentId : String)
    (ev : ServerEvent) (excludeSocketId : Option String) : List (String × ServerEvent) :=
  match documents.lookup documentId with
  | none => []
  | some doc =>
    (doc.users.filter (fun p => some p.1 ≠ excludeSocketId)).map (fun p => (p.1, ev))

/-- Per-connection state of the relay dispatcher: the socket id plus the
handler-local `currentDocumentId` and `currentUser` variables. -/
structure ConnState where
  socketId : String
  currentDocumentId : Option String
  currentUser : Option ServerUser
deriving DecidableEq, Repr

/-- The server-side application of an operation to `doc.content` inside the
`operation` handler (`server.js` lines 181–189): the same `substring`
splice as `OTEngine.applyInsert`/`applyDelete`. -/
def applyServer (content : Str) (operation : Operation) : Str :=
  match operation with
  | .insert op =>
    let before := jsSubstring content 0 op.position
    let after := jsSubstring content op.position (content.length : Int)
    before ++ op.text ++ after
  | .delete op =>
    let before := jsSubstring content 0 op.position
    let after := jsSubstring content (op.position + op.length) (content.length : Int)
    before ++ after

/-- The `operation` message handler: if the connection has not joined a
document, log and drop (no state change, no emission); otherwise apply the
operation to the document content, increment the version, append the
stamped operation to the log, and broadcast to the other members. -/
def handleOperation (conn : ConnState) (documents : DocMap) (now : Int)
    (operation : Operation) : DocMap × List (String × ServerEvent) :=
  match conn.currentDocumentId with
  | none => (documents, [])
  | some documentId =>
    let gd := getDocument documents documentId
    let doc := gd.2
    let newContent := applyServer doc.content operation
    let newVersion := doc.version + 1
    let stamped : StampedOp :=
      { op := operation, serverVersion := newVersion, serverTimestamp := now }
    let newDoc := { doc with
      content := newContent, version := newVersion,
      operations := doc.operations ++ [stamped] }
    let documents2 := setDocument gd.1 documentId newDoc
    (documents2,
      broadcastToDocument documents2 documentId
        (.operationEvent operation newVersion) (some conn.socketId))

/-- JS `Map.set` on an association list: replace the value in place when
the key is present, append the pair otherwise. -/
def mapSet {α : Type} (m : List (String × α)) (k : String) (v : α) : List (String × α) :=
  if (m.lookup k).isSome then
    m.map (fun p => if p.1 = k then (k, v) else p)
  else m ++ [(k, v)]

/-- Embeds `addUser`: build a user record for the socket (name and colour are
inputs: the source reads the name from the handshake query and the colour
from the round-robin palette) and insert it into the document's roster. -/
def addUser (documents : DocMap) (documentId : String) (socketId : String)
    (name color : String) : DocMap × ServerUser :=
  let gd := getDocument documents documentId
  let doc := gd.2
  let user : ServerUser := { id := socketId, name := name, color := color, cursor := 0 }
  let newDoc := { doc with users := mapSet doc.users socketId user }
  (setDocument gd.1 documentId newDoc, user)

/-- Embeds `removeUser`: delete the socket's roster entry if the document exists. -/
def removeUser (documents : DocMap) (documentId : String) (socketId : String) : DocMap :=
  match documents.lookup documentId with
  | none => documents
  | some doc =>
    setDocument documents documentId
      { doc with users := doc.users.filter (fun p => p.1 ≠ socketId) }

/-- The `join-document` handler: leave any previous document, record the new
document id, create the document if needed, add the user, emit
`document-state` to the joining socket and `user-joined` to the others. -/
def handleJoinDocument (conn : ConnState) (documents : DocMap)
    (documentId : String) (name color : String) :
    ConnState × DocMap × List (String × ServerEvent) :=
  let documents1 :=
    match conn.currentDocumentId with
    | some prev => removeUser documents prev conn.socketId
    | none => documents
  let au := addUser documents1 documentId conn.socketId name color
  let documents2 := au.1
  let user := au.2
  let doc := (getDocument documents2 documentId).2
  let conn' := { conn with currentDocumentId := some documentId, currentUser := some user }
  let selfEmit : String × ServerEvent :=
    (conn.socketId, .documentState doc.content doc.version (doc.users.map Prod.snd))
  let others := broadcastToDocument documents2 documentId
    (.userJoined user (doc.users.map Prod.snd)) (some conn.socketId)
  (conn', documents2, selfEmit :: others)

/-- The `cursor-position` handler: if joined and the user exists, update the
user's cursor and broadcast `cursor-update` to the others. -/
def handleCursorPosition (conn : ConnState) (documents : DocMap)
    (position : Int) : DocMap × List (String × ServerEvent) :=
  match conn.currentDocumentId, conn.currentUser with
  | some documentId, some _ =>
    let gd := getDocument documents documentId
    let doc := gd.2
    (match doc.users.lookup conn.socketId with
     | none => (gd.1, [])
     | some user =>
       let newUsers := doc.users.map (fun p =>
         if p.1 = conn.socketId then (p.1, { user with cursor := position }) else p)
       let newDoc := { doc with users := newUsers }
       let documents2 := setDocument gd.1 documentId newDoc
       (documents2,
         broadcastToDocument documents2 documentId
           (.cursorUpdate conn.socketId position) (some conn.socketId)))
  | _, _ => (documents, [])

/-- The `disconnect` handler: if joined, remove the user and broadcast
`user-left` to the remaining members. -/
def handleDisconnect (conn : ConnState) (documents : DocMap) :
    DocMap × List (String × ServerEvent) :=
  match conn.currentDocumentId with
  | none => (documents, [])
  | some documentId =>
    let documents1 := removeUser documents documentId conn.socketId
    let doc := (getDocument documents1 documentId).2
    (documents1,
      broadcastToDocument documents1 documentId
        (.userLeft conn.socketId (doc.users.map Prod.snd)) none)

/-! ### Spec-side predicates and comparison definitions -/

/-- Well-formedness of an operation per the spec's data model (§3): positions
are ≥ 0, and a delete's length is > 0. -/
def wfOp : Operation → Prop
  | .insert i => 0 ≤ i.position
  | .delete d => 0 ≤ d.position ∧ 0 < d.length

/-- Validity of an operation against a base text, per the spec's `apply`
contract (§4.1): an insert's position lies in `[0, len]`; a delete's range
lies within the text. -/
def validOn (s : Str) : Operation → Prop
  | .insert i => 0 ≤ i.position ∧ i.position ≤ (s.length : Int)
  | .delete d => 0 ≤ d.position ∧ d.position + d.length ≤ (s.length : Int)

/-- Modelled from the spec (§4.1) for the refinement comparison of claim C2:
an `apply` that fails with `OutOfRange` when an insert's position exceeds the
text length or a delete's range ends past the text length, and otherwise
splits or removes as described. The code's `apply` above is total and is
compared against this. -/
def applySpecC2 (text : Str) (op : Operation) : Option Str :=
  match op with
  | .insert i =>
    if (text.length : Int) < i.position then none
    else some (text.take i.position.toNat ++ i.text ++ text.drop i.position.toNat)
  | .delete d =>
    if (text.length : Int) < d.position + d.length then none
    else some (text.take d.position.toNat ++ text.drop (d.position + d.length).toNat)

/-- Variant tag of an operation (true for inserts). -/
def isInsert : Operation → Bool
  | .insert _ => true
  | .delete _ => false

/-- The `id` field of either variant. -/
def opId : Operation → String
  | .insert i => i.id
  | .delete d => d.id

/-- The `userId` field of either variant. -/
def opUserId : Operation → String
  | .insert i => i.userId
  | .delete d => d.userId

/-- The `timestamp` field of either variant. -/
def opTimestamp : Operation → Int
  | .insert i => i.timestamp
  | .delete d => d.timestamp

/-- The `text` field: present for inserts, absent for deletes. -/
def opText : Operation → Option Str
  | .insert i => some i.text
  | .delete _ => none

/-- Replay a stamped-operation log from the empty document using the server's
splice semantics. -/
def replayOps (ops : List StampedOp) : Str :=
  ops.foldl (fun s p => applyServer s p.op) []

/-- The document invariant from the spec's data model (§3): the version equals
the log length, and replaying the log from the empty string yields the
content. -/
def docInvariant (doc : ServerDoc) : Prop :=
  doc.version = (doc.operations.length : Int) ∧ replayOps doc.operations = doc.content

/-- The relay-wide invariant: every document held in the map satisfies
`docInvariant`. -/
def mapInvariant (documents : DocMap) : Prop :=
  ∀ p ∈ documents, docInvariant p.2

/-! ### Concrete instances used by the claims -/

/-- Scenario 3 of the spec: the concurrent delete (position 1, length 4). -/
def c1DeleteA : DeleteOp :=
  { id := "a1", userId := "A", timestamp := 0, position := 1, length := 4 }

/-- Scenario 3 of the spec: the concurrent insert of "X" at position 3. -/
def c1InsertB : InsertOp :=
  { id := "b1", userId := "B", timestamp := 0, position := 3, text := "X".toList }

/-- An insert whose position (5) exceeds the length of the base text "ab". -/
def c2Insert : InsertOp :=
  { id := "c2i", userId := "u", timestamp := 0, position := 5, text := "X".toList }

/-- A delete whose range (position 1, length 5) runs past the end of "ab". -/
def c2Delete : DeleteOp :=
  { id := "c2d", userId := "u", timestamp := 0, position := 1, length := 5 }

/-- The document id used in the claim-C3 scenario. -/
def c3DocId : String := "d"

/-- A connection already joined to the claim-C3 document. -/
def c3Conn : ConnState :=
  { socketId := "s1", currentDocumentId := some c3DocId, currentUser := none }

/-- A document map holding one empty document under the claim-C3 id. -/
def c3Docs : DocMap := [(c3DocId, emptyDoc c3DocId)]

/-- A delete of length 1 against empty content: clamping per the spec would
make it a zero-length delete. -/
def c3Degenerate : DeleteOp :=
  { id := "c3", userId := "u", timestamp := 0, position := 0, length := 1 }

/-- Scenario 2 of the spec: user "A" inserts "X" at position 1. -/
def c4InsertA : InsertOp :=
  { id := "ia", userId := "A", timestamp := 0, position := 1, text := "X".toList }

/-- Scenario 2 of the spec: user "B" inserts "Y" at position 1. -/
def c4InsertB : InsertOp :=
  { id := "ib", userId := "B", timestamp := 0, position := 1, text := "Y".toList }

/-- Scenario 5 of the spec: same-user insert of "he" at position 0. -/
def c5He : InsertOp :=
  { id := "c5a", userId := "u", timestamp := 0, position := 0, text := "he".toList }

/-- Scenario 5 of the spec: same-user insert of "llo" at position 2. -/
def c5Llo : InsertOp :=
  { id := "c5b", userId := "u", timestamp := 0, position := 2, text := "llo".toList }

/-- Scenario 5 of the spec: the composed insert of "hello" at position 0. -/
def c5Hello : InsertOp :=
  { id := "c5a", userId := "u", timestamp := 0, position := 0, text := "hello".toList }

/-- An operation id used by the change-detector witness. -/
def c7Id : String := "op7"

/-- A user id used by the change-detector witness. -/
def c7User : String := "u7"

/-- A connection that has not joined any document. -/
def c9Conn : ConnState :=
  { socketId := "s9", currentDocumentId := none, currentUser := none }

/-! ### Helper lemmas about the substring model -/

theorem take_min_length (s : Str) (k : Nat) : s.take (min k s.length) = s.take k := by
  rcases le_total k s.length with h | h
  · rw [min_eq_left h]
  · rw [min_eq_right h, List.take_length, List.take_of_length_le h]

theorem drop_min_length (s : Str) (k : Nat) : s.drop (min k s.length) = s.drop k := by
  rcases le_total k s.length with h | h
  · rw [min_eq_left h]
  · rw [min_eq_right h, List.drop_length, List.drop_eq_nil_of_le h]

theorem jsSubstring_zero (s : Str) (p : Int) : jsSubstring s 0 p = s.take p.toNat := by
  show (s.take (max (min (Int.toNat 0) s.length) (min p.toNat s.length))).drop
      (min (min (Int.toNat 0) s.length) (min p.toNat s.length)) = s.take p.toNat
  simp [Int.toNat_zero, take_min_length]

theorem jsSubstring_from (s : Str) (p : Int) :
    jsSubstring s p (s.length : Int) = s.drop p.toNat := by
  show (s.take (max (min p.toNat s.length) (min (Int.toNat (s.length : Int)) s.length))).drop
      (min (min p.toNat s.length) (min (Int.toNat (s.length : Int)) s.length)) = s.drop p.toNat
  have h1 : Int.toNat (s.length : Int) = s.length := rfl
  rw [h1, min_self]
  rw [max_eq_right (min_le_right _ _), min_eq_left (min_le_right _ _)]
  rw [List.take_length, drop_min_length]

theorem jsSubstring_slice (s : Str) (a b : Int) (hab : a ≤ b) (hb : b ≤ (s.length : Int)) :
    jsSubstring s a b = (s.take b.toNat).drop a.toNat := by
  show (s.take (max (min a.toNat s.length) (min b.toNat s.length))).drop
      (min (min a.toNat s.length) (min b.toNat s.length)) = (s.take b.toNat).drop a.toNat
  have hbn : b.toNat ≤ s.length := Int.toNat_le.mpr hb
  have han : a.toNat ≤ b.toNat := Int.toNat_le_toNat hab
  rw [min_eq_left hbn, min_eq_left (le_trans han hbn)]
  rw [max_eq_right han, min_eq_left han]

theorem applyInsert_eq (text : Str) (op : InsertOp) :
    applyInsert text op =
      text.take op.position.toNat ++ op.text ++ text.drop op.position.toNat := by
  show jsSubstring text 0 op.position ++ op.text ++
      jsSubstring text op.position (text.length : Int) = _
  rw [jsSubstring_zero, jsSubstring_from]

theorem applyDelete_eq (text : Str) (op : DeleteOp) :
    applyDelete text op =
      text.take op.position.toNat ++ text.drop (op.position + op.length).toNat := by
  show jsSubstring text 0 op.position ++
      jsSubstring text (op.position + op.length) (text.length : Int) = _
  rw [jsSubstring_zero, jsSubstring_from]

theorem applyServer_eq_apply (content : Str) (op : Operation) :
    applyServer content op = apply content op := by
  cases op <;> rfl

/-! ### Helper lemmas about the document map -/

theorem mem_of_lookup_eq_some {α : Type} {m : List (String × α)} {k : String} {v : α}
    (h : m.lookup k = some v) : (k, v) ∈ m := by
  induction m with
  | nil => simp [List.lookup] at h
  | cons q rest ih =>
    rw [List.lookup] at h
    split at h
    · next heq =>
      injection h with h2
      have hq : q = (k, v) := by
        cases q with
        | mk a b =>
          simp only [beq_iff_eq] at heq
          simp only at h2
          subst heq
          subst h2
          rfl
      rw [hq]
      exact List.mem_cons_self _ _
    · exact List.mem_cons_of_mem q (ih h)

theorem lookup_setDocument_self (m : DocMap) (k : String) (v : ServerDoc)
    (h : (m.lookup k).isSome) : (setDocument m k v).lookup k = some v := by
  induction m with
  | nil => simp [List.lookup] at h
  | cons q rest ih =>
    by_cases hk : q.1 = k
    · show (((if q.1 = k then (k, v) else q) :: rest.map _).lookup k) = some v
      rw [if_pos hk]
      simp [List.lookup]
    · show (((if q.1 = k then (k, v) else q) :: rest.map _).lookup k) = some v
      rw [if_neg hk]
      rw [List.lookup] at h ⊢
      have hbeq : (k == q.1) = false := by
        simp only [beq_eq_false_iff_ne]
        exact fun e => hk e.symm
      rw [hbeq] at h ⊢
      exact ih h

theorem mem_setDocument {m : DocMap} {k : String} {v : ServerDoc} {p : String × ServerDoc}
    (h : p ∈ setDocument m k v) : p = (k, v) ∨ p ∈ m := by
  obtain ⟨q, hq, hqe⟩ := List.mem_map.mp h
  by_cases hk : q.1 = k
  · rw [if_pos hk] at hqe
    exact Or.inl hqe.symm
  · rw [if_neg hk] at hqe
    exact Or.inr (hqe ▸ hq)

theorem mapInvariant_setDocument {m : DocMap} {k : String} {v : ServerDoc}
    (hm : mapInvariant m) (hv : docInvariant v) : mapInvariant (setDocument m k v) := by
  intro p hp
  rcases mem_setDocument hp with h | h
  · rw [h]; exact hv
  · exact hm p h

theorem docInvariant_emptyDoc (documentId : String) : docInvariant (emptyDoc documentId) :=
  ⟨rfl, rfl⟩

theorem getDocument_fst_lookup (m : DocMap) (k : String) :
    ((getDocument m k).1.lookup k) = some (getDocument m k).2 := by
  unfold getDocument
  cases h : m.lookup k with
  | some doc => simp [h]
  | none => simp [h, List.lookup]

theorem getDocument_invariant {m : DocMap} (hm : mapInvariant m) (k : String) :
    mapInvariant (getDocument m k).1 ∧ docInvariant (getDocument m k).2 := by
  unfold getDocument
  cases h : m.lookup k with
  | some doc =>
    refine ⟨by simpa [h] using hm, ?_⟩
    exact hm (k, doc) (mem_of_lookup_eq_some h)
  | none =>
    refine ⟨?_, by simp [h]; exact docInvariant_emptyDoc k⟩
    intro p hp
    simp only [h] at hp
    rcases List.mem_cons.mp hp with he | hmem
    · rw [he]; exact docInvariant_emptyDoc k
    · exact hm p hmem

theorem docInvariant_users_update (doc : ServerDoc) (u : List (String × ServerUser))
    (h : docInvariant doc) : docInvariant { doc with users := u } := h

theorem mapInvariant_removeUser {m : DocMap} (hm : mapInvariant m)
    (documentId socketId : String) : mapInvariant (removeUser m documentId socketId) := by
  unfold removeUser
  cases h : m.lookup documentId with
  | none => exact hm
  | some doc =>
    exact mapInvariant_setDocument hm
      (docInvariant_users_update doc _ (hm (documentId, doc) (mem_of_lookup_eq_some h)))

/-! ### Claim theorems -/

/-- C1: TP1 convergence fails on the code at the spec's own example. On base
"abcdef" with the concurrent operations a = Delete(position 1, length 4) and
b = Insert of "X" at position 3, applying a then transform(b, a) yields "aXf"
(as the spec says), but applying b then transform(a, b) yields "af": the
delete-vs-insert transform extends the delete over the concurrently inserted
text, so the two orders disagree and the claimed universal convergence
property is violated. -/
theorem C1_tp1_fails_on_spec_example :
    apply (apply ("abcdef".toList) (.delete c1DeleteA))
        (transform (.insert c1InsertB) (.delete c1DeleteA)) = "aXf".toList ∧
    apply (apply ("abcdef".toList) (.insert c1InsertB))
        (transform (.delete c1DeleteA) (.insert c1InsertB)) = "af".toList ∧
    ("aXf".toList : Str) ≠ ("af".toList : Str) := by
  refine ⟨?_, ?_, ?_⟩ <;> decide

/-- C4: for two inserts at the same position with distinct user ids, the
transform breaks the tie lexicographically on `userId`: a smaller `userId` on
the other insert shifts this one right by the other text's length, otherwise
this one is unchanged; and on base "ab" with user "A" inserting "X" at 1 and
user "B" inserting "Y" at 1, transforming and applying in both orders
converges to "aXYb". -/
theorem C4_insert_same_position_tiebreak (a b : InsertOp)
    (hpos : b.position = a.position) (_hne : a.userId ≠ b.userId) :
    (jsStrLt b.userId a.userId →
      transform (.insert a) (.insert b) =
        .insert { a with position := a.position + (b.text.length : Int) }) ∧
    (¬ jsStrLt b.userId a.userId → transform (.insert a) (.insert b) = .insert a) ∧
    apply (apply ("ab".toList) (.insert c4InsertA))
        (transform (.insert c4InsertB) (.insert c4InsertA)) = "aXYb".toList ∧
    apply (apply ("ab".toList) (.insert c4InsertB))
        (transform (.insert c4InsertA) (.insert c4InsertB)) = "aXYb".toList := by
  refine ⟨?_, ?_, by decide, by decide⟩
  · intro h
    simp [transform, transformInsertInsert, hpos, h]
  · intro h
    simp [transform, transformInsertInsert, hpos, h]

/-- C4 witness: the tie-break theorem applied to the spec's scenario-2 inserts
in both argument orders. -/
theorem C4_insert_same_position_tiebreak_witness :
    transform (.insert c4InsertA) (.insert c4InsertB) = .insert c4InsertA ∧
    transform (.insert c4InsertB) (.insert c4InsertA) =
      .insert { c4InsertB with position := c4InsertB.position + (c4InsertA.text.length : Int) } := by
  constructor
  · exact (C4_insert_same_position_tiebreak c4InsertA c4InsertB (by decide)
      (by decide)).2.1 (by decide)
  · exact (C4_insert_same_position_tiebreak c4InsertB c4InsertA (by decide)
      (by decide)).1 (by decide)

/-- C6: `transformAgainst` applied to a queue of operations is the left fold
of `transform` over that queue. -/
theorem C6_transformAgainst_eq_foldl (op : Operation) (operations : List Operation) :
    transformAgainst op operations = operations.foldl transform op := by
  induction operations generalizing op with
  | nil => rfl
  | cons q rest ih => exact ih (transform op q)

/-- C9: an `operation` message on a connection that has not joined any
document is dropped: the document map is unchanged (hence every document's
content, version, and log), and nothing is emitted to any peer. -/
theorem C9_operation_before_join_dropped (conn : ConnState) (documents : DocMap)
    (now : Int) (op : Operation) (h : conn.currentDocumentId = none) :
    (handleOperation conn documents now op).1 = documents ∧
    (handleOperation conn documents now op).2 = [] := by
  unfold handleOperation
  rw [h]
  exact ⟨rfl, rfl⟩

/-- C9 witness: the drop theorem applied to a concrete not-joined connection,
a concrete map, and a concrete operation. -/
theorem C9_operation_before_join_dropped_witness :
    (handleOperation c9Conn c3Docs 0 (.insert c4InsertA)).1 = c3Docs ∧
    (handleOperation c9Conn c3Docs 0 (.insert c4InsertA)).2 = [] :=
  C9_operation_before_join_dropped c9Conn c3Docs 0 (.insert c4InsertA) rfl

/-- C10: `transform` preserves the operation's variant and its `id`, `userId`
and `timestamp` fields, and for inserts also the `text` field — only the
position (and, for deletes, the length) can change. -/
theorem C10_transform_frame (a b : Operation) :
    isInsert (transform a b) = isInsert a ∧
    opId (transform a b) = opId a ∧
    opUserId (transform a b) = opUserId a ∧
    opTimestamp (transform a b) = opTimestamp a ∧
    opText (transform a b) = opText a := by
  cases a <;> cases b <;>
    simp only [transform, transformInsertInsert, transformInsertDelete,
      transformDeleteInsert, transformDeleteDelete, isInsert, opId, opUserId,
      opTimestamp, opText] <;>
    split_ifs <;>
    simp

/-- C2 counterexample: the claim says `apply` fails with `OutOfRange` on an
insert whose position exceeds the text length, but the code's `apply` is
total: on base "ab" and an insert of "X" at position 5 the spec-worded
`applySpecC2` fails while the code clamps and returns "abX". -/
theorem C2_apply_does_not_fail :
    applySpecC2 ("ab".toList) (.insert c2Insert) = none ∧
    apply ("ab".toList) (.insert c2Insert) = "abX".toList := by
  constructor <;> decide

/-- C2 (amended): `apply` never fails; out-of-range indices are clamped by
the substring semantics. In range, an insert splits the text at its position
and places its text between the halves (growing the length by the inserted
text's length), and a delete removes exactly its length of units starting at
its position. Out of range, an insert whose position exceeds the length
appends at the end, and a delete whose range runs past the end removes
everything from its position on. -/
theorem C2_apply_total_with_clamping (text : Str) (i : InsertOp) (d : DeleteOp) :
    (0 ≤ i.position → i.position ≤ (text.length : Int) →
      applyInsert text i =
        text.take i.position.toNat ++ i.text ++ text.drop i.position.toNat ∧
      (applyInsert text i).length = text.length + i.text.length) ∧
    ((text.length : Int) < i.position → applyInsert text i = text ++ i.text) ∧
    (0 ≤ d.position → 0 ≤ d.length → d.position + d.length ≤ (text.length : Int) →
      applyDelete text d =
        text.take d.position.toNat ++ text.drop (d.position + d.length).toNat ∧
      (applyDelete text d).length = text.length - d.length.toNat) ∧
    (0 ≤ d.position → d.position ≤ (text.length : Int) →
      (text.length : Int) < d.position + d.length →
      applyDelete text d = text.take d.position.toNat) := by
  refine ⟨?_, ?_, ?_, ?_⟩
  · intro _h0 hle
    refine ⟨applyInsert_eq text i, ?_⟩
    rw [applyInsert_eq text i]
    have hP : i.position.toNat ≤ text.length := Int.toNat_le.mpr hle
    simp [List.length_take, List.length_drop, min_eq_left hP]
    omega
  · intro hgt
    rw [applyInsert_eq text i]
    have hP : text.length ≤ i.position.toNat := by
      have := Int.toNat_le_toNat hgt.le
      simpa using this
    rw [List.take_of_length_le hP, List.drop_eq_nil_of_le hP, List.append_nil]
  · intro h0 hl hle
    refine ⟨applyDelete_eq text d, ?_⟩
    rw [applyDelete_eq text d]
    have hPL : (d.position + d.length).toNat = d.position.toNat + d.length.toNat :=
      Int.toNat_add h0 hl
    have hle2 : (d.position + d.length).toNat ≤ text.length := Int.toNat_le.mpr hle
    simp [List.length_take, List.length_drop]
    omega
  · intro _h0 hple hgt
    rw [applyDelete_eq text d]
    have hP : text.length ≤ (d.position + d.length).toNat := by
      have := Int.toNat_le_toNat hgt.le
      simpa using this
    rw [List.drop_eq_nil_of_le hP, List.append_nil]

/-- C2 amended-claim witness: the clamping theorem applied to base "ab", the
out-of-range insert at position 5, and the out-of-range delete of range
(1, 5): the insert appends, the delete truncates from position 1. -/
theorem C2_apply_total_with_clamping_witness :
    applyInsert ("ab".toList) c2Insert = "ab".toList ++ "X".toList ∧
    applyDelete ("ab".toList) c2Delete = ("ab".toList).take 1 := by
  constructor
  · exact (C2_apply_total_with_clamping ("ab".toList) c2Insert c2Delete).2.1 (by decide)
  · exact (C2_apply_total_with_clamping ("ab".toList) c2Insert c2Delete).2.2.2
      (by decide) (by decide) (by decide)

/-- C3 counterexample: against a document with empty content, a submitted
delete of (position 0, length 1) is out of range and clamping would make it a
zero-length delete, so per the claim it must be dropped with the version not
advanced; the handler instead advances the version to 1 and appends the
operation to the log. -/
theorem C3_degenerate_delete_still_commits :
    ((handleOperation c3Conn c3Docs 77 (.delete c3Degenerate)).1.lookup c3DocId).map
      ServerDoc.version = some 1 ∧
    ((handleOperation c3Conn c3Docs 77 (.delete c3Degenerate)).1.lookup c3DocId).map
      (fun doc => doc.operations.length) = some 1 ∧
    (handleOperation c3Conn c3Docs 77 (.delete c3Degenerate)).1 ≠ c3Docs := by
  refine ⟨?_, ?_, ?_⟩ <;> decide

/-- C3 (amended): the session store neither validates nor clamps and never
drops a submitted operation: whenever the connection has joined a document,
the handler unconditionally replaces that document's content with the
substring-splice application of the operation (whose effective edit the
substring semantics clamp into the text), increments the version by exactly
one, and appends the operation stamped with the new version and the server
timestamp to the log. -/
theorem C3_submit_always_commits (conn : ConnState) (documents : DocMap)
    (now : Int) (op : Operation) (documentId : String)
    (h : conn.currentDocumentId = some documentId) :
    ((handleOperation conn documents now op).1.lookup documentId) =
      some { (getDocument documents documentId).2 with
        content := applyServer (getDocument documents documentId).2.content op,
        version := (getDocument documents documentId).2.version + 1,
        operations := (getDocument documents documentId).2.operations ++
          [{ op := op,
             serverVersion := (getDocument documents documentId).2.version + 1,
             serverTimestamp := now }] } := by
  unfold handleOperation
  rw [h]
  exact lookup_setDocument_self _ _ _
    (by rw [getDocument_fst_lookup]; rfl)

/-- C3 amended-claim witness: the always-commits theorem applied to the
concrete joined connection and document map of the counterexample. -/
theorem C3_submit_always_commits_witness :
    ((handleOperation c3Conn c3Docs 77 (.delete c3Degenerate)).1.lookup c3DocId) =
      some { (getDocument c3Docs c3DocId).2 with
        content := applyServer (getDocument c3Docs c3DocId).2.content (.delete c3Degenerate),
        version := (getDocument c3Docs c3DocId).2.version + 1,
        operations := (getDocument c3Docs c3DocId).2.operations ++
          [{ op := .delete c3Degenerate,
             serverVersion := (getDocument c3Docs c3DocId).2.version + 1,
             serverTimestamp := 77 }] } :=
  C3_submit_always_commits c3Conn c3Docs 77 (.delete c3Degenerate) c3DocId rfl

/-- C7: the change detector returns none when the texts are equal; on pure
growth it returns an insert whose position is the caret minus the number of
inserted units and whose text is the slice of the new text from that position
to the caret (stated for carets within the new text); on pure shrink it
returns a delete at the caret of the removed length; and on an equal-length
replacement it returns none. -/
theorem C7_detectChange_cases (newId : String) (now : Int) (oldText newText : Str)
    (cursorPosition : Int) (userId : String) :
    (oldText = newText →
      detectChange newId now oldText newText cursorPosition userId = none) ∧
    (oldText.length < newText.length →
      0 ≤ cursorPosition - ((newText.length : Int) - (oldText.length : Int)) →
      cursorPosition ≤ (newText.length : Int) →
      detectChange newId now oldText newText cursorPosition userId =
        some (.insert
          { id := newId, userId := userId, timestamp := now,
            position := cursorPosition - ((newText.length : Int) - (oldText.length : Int)),
            text := (newText.take cursorPosition.toNat).drop
              (cursorPosition - ((newText.length : Int) - (oldText.length : Int))).toNat })) ∧
    (newText.length < oldText.length →
      detectChange newId now oldText newText cursorPosition userId =
        some (.delete
          { id := newId, userId := userId, timestamp := now,
            position := cursorPosition,
            length := (oldText.length : Int) - (newText.length : Int) })) ∧
    (oldText.length = newText.length → oldText ≠ newText →
      detectChange newId now oldText newText cursorPosition userId = none) := by
  refine ⟨?_, ?_, ?_, ?_⟩
  · intro he
    simp [detectChange, he]
  · intro hlen h0 hc
    have hne : oldText ≠ newText := by
      intro e
      rw [e] at hlen
      exact lt_irrefl _ hlen
    have hlt : ((oldText.length : Int) < (newText.length : Int)) := by exact_mod_cast hlen
    have hslice := jsSubstring_slice newText
      (cursorPosition - ((newText.length : Int) - (oldText.length : Int))) cursorPosition
      (by omega) hc
    simp only [detectChange, if_neg hne, if_pos hlt, createInsertOperation, hslice]
  · intro hlen
    have hne : oldText ≠ newText := by
      intro e
      rw [e] at hlen
      exact lt_irrefl _ hlen
    have h1 : ¬ ((oldText.length : Int) < (newText.length : Int)) := by
      exact_mod_cast hlen.le.not_lt
    have h2 : ((newText.length : Int) < (oldText.length : Int)) := by exact_mod_cast hlen
    simp only [detectChange, if_neg hne, if_neg h1, if_pos h2, createDeleteOperation]
  · intro hlen hne
    have h1 : ¬ ((oldText.length : Int) < (newText.length : Int)) := by simp [hlen]
    have h2 : ¬ ((newText.length : Int) < (oldText.length : Int)) := by simp [hlen]
    simp only [detectChange, if_neg hne, if_neg h1, if_neg h2]

/-- C7 witness: the detector theorem applied to a concrete growth
("ab" to "aXb", caret 2: an insert of "X" at position 1) and a concrete
shrink ("ab" to "b", caret 0: a delete of one unit at position 0). -/
theorem C7_detectChange_cases_witness :
    detectChange c7Id 5 ("ab".toList) ("aXb".toList) 2 c7User =
      some (.insert { id := c7Id, userId := c7User, timestamp := 5, position := 1,
                      text := "X".toList }) ∧
    detectChange c7Id 5 ("ab".toList) ("b".toList) 0 c7User =
      some (.delete { id := c7Id, userId := c7User, timestamp := 5, position := 0,
                      length := 1 }) := by
  constructor
  · rw [(C7_detectChange_cases c7Id 5 ("ab".toList) ("aXb".toList) 2 c7User).2.1
      (by decide) (by decide) (by decide)]
    decide
  · rw [(C7_detectChange_cases c7Id 5 ("ab".toList) ("b".toList) 0 c7User).2.2.1
      (by decide)]
    decide

theorem drop_append_right (X Z : List Char) (P M : Nat) (hX : X.length = P) :
    (X ++ Z).drop (P + M) = Z.drop M := by
  rw [List.drop_append_eq_append_drop, hX, Nat.add_sub_cancel_left,
    List.drop_eq_nil_of_le (by omega), List.nil_append]

/-- C5: compose soundness — whenever `compose` merges two well-formed
operations into `c` and `c` is valid on a base text `s`, applying the two in
sequence equals applying `c` — together with the characterization of when
`compose` returns an operation: exactly for same-user inserts whose positions
abut (giving the concatenated insert) and same-user deletes at the same
position (giving the summed delete); every other pair gives none. -/
theorem C5_compose_sound_and_characterized (op1 op2 : Operation) :
    (∀ c s, compose op1 op2 = some c → wfOp op1 → wfOp op2 → validOn s c →
      apply (apply s op1) op2 = apply s c) ∧
    (∀ c, compose op1 op2 = some c ↔
      ((∃ a b, op1 = .insert a ∧ op2 = .insert b ∧
        b.position = a.position + (a.text.length : Int) ∧ a.userId = b.userId ∧
        c = .insert { a with text := a.text ++ b.text }) ∨
       (∃ a b, op1 = .delete a ∧ op2 = .delete b ∧
        b.position = a.position ∧ a.userId = b.userId ∧
        c = .delete { a with length := a.length + b.length }))) := by
  constructor
  · intro c s hc h1 h2 hv
    cases op1 with
    | insert a =>
      cases op2 with
      | insert b =>
        simp only [compose] at hc
        obtain ⟨⟨hpos, _⟩, hcc⟩ := Option.ite_none_right_eq_some.mp hc
        rw [Option.some_inj] at hcc
        subst hcc
        obtain ⟨hp0, hps⟩ := hv
        have hp0a : (0 : Int) ≤ a.position := hp0
        have hpsa : a.position ≤ (s.length : Int) := hps
        have hP : a.position.toNat ≤ s.length := Int.toNat_le.mpr hpsa
        have hbPos : b.position.toNat = a.position.toNat + a.text.length := by
          rw [← hpos, Int.toNat_add hp0a (Int.natCast_nonneg _)]
          rfl
        show applyInsert (applyInsert s a) b =
          applyInsert s { a with text := a.text ++ b.text }
        rw [applyInsert_eq, applyInsert_eq, applyInsert_eq]
        simp only [hbPos]
        have hXlen : (s.take a.position.toNat ++ a.text).length =
            a.position.toNat + a.text.length := by
          simp [List.length_take, min_eq_left hP]
        rw [List.take_left' hXlen, List.drop_left' hXlen]
        simp [List.append_assoc]
      | delete b => simp [compose] at hc
    | delete a =>
      cases op2 with
      | insert b => simp [compose] at hc
      | delete b =>
        simp only [compose] at hc
        obtain ⟨⟨hpos, _⟩, hcc⟩ := Option.ite_none_right_eq_some.mp hc
        rw [Option.some_inj] at hcc
        subst hcc
        obtain ⟨hp0, hrange⟩ := hv
        have hp0a : (0 : Int) ≤ a.position := hp0
        have hrangea : a.position + (a.length + b.length) ≤ (s.length : Int) := hrange
        obtain ⟨hk0, hk⟩ := h1
        obtain ⟨hm0, hm⟩ := h2
        have hka : (0 : Int) < a.length := hk
        have hma : (0 : Int) < b.length := hm
        have hP : a.position.toNat ≤ s.length := by
          apply Int.toNat_le.mpr
          omega
        have hPK : (a.position + a.length).toNat =
            a.position.toNat + a.length.toNat := Int.toNat_add hp0a hka.le
        have hbP : b.position.toNat = a.position.toNat := by rw [← hpos]
        have hbPM : (b.position + b.length).toNat =
            a.position.toNat + b.length.toNat := by
          rw [← hpos, Int.toNat_add hp0a hma.le]
        have hPKM : (a.position + (a.length + b.length)).toNat =
            a.position.toNat + (a.length.toNat + b.length.toNat) := by
          rw [Int.toNat_add hp0a (by omega), Int.toNat_add hka.le hma.le]
        show applyDelete (applyDelete s a) b =
          applyDelete s { a with length := a.length + b.length }
        rw [applyDelete_eq, applyDelete_eq, applyDelete_eq]
        simp only [hPK, hbP, hbPM, hPKM]
        have hXlen : (s.take a.position.toNat).length = a.position.toNat := by
          simp [List.length_take, min_eq_left hP]
        rw [List.take_left' hXlen, drop_append_right _ _ _ _ hXlen, List.drop_drop,
          Nat.add_assoc]
  · intro c
    constructor
    · intro hc
      cases op1 with
      | insert a =>
        cases op2 with
        | insert b =>
          simp only [compose] at hc
          obtain ⟨⟨hpos, huid⟩, hcc⟩ := Option.ite_none_right_eq_some.mp hc
          exact Or.inl ⟨a, b, rfl, rfl, hpos.symm, huid, (Option.some_inj.mp hcc).symm⟩
        | delete b => simp [compose] at hc
      | delete a =>
        cases op2 with
        | insert b => simp [compose] at hc
        | delete b =>
          simp only [compose] at hc
          obtain ⟨⟨hpos, huid⟩, hcc⟩ := Option.ite_none_right_eq_some.mp hc
          exact Or.inr ⟨a, b, rfl, rfl, hpos.symm, huid, (Option.some_inj.mp hcc).symm⟩
    · rintro (⟨a, b, ha, hb, hpos, huid, hcc⟩ | ⟨a, b, ha, hb, hpos, huid, hcc⟩) <;>
        subst ha <;> subst hb <;> subst hcc <;>
        simp only [compose] <;>
        exact Option.ite_none_right_eq_some.mpr ⟨⟨hpos.symm, huid⟩, rfl⟩

/-- C5 witness: the compose theorem applied to the spec's scenario-5 inserts:
Insert(0, "he") then Insert(2, "llo") by the same user compose to
Insert(0, "hello"), and applying the pair to the empty text equals applying
the composite. -/
theorem C5_compose_sound_and_characterized_witness :
    apply (apply ([] : Str) (.insert c5He)) (.insert c5Llo) =
      apply ([] : Str) (.insert c5Hello) ∧
    compose (.insert c5He) (.insert c5Llo) = some (.insert c5Hello) := by
  constructor
  · have hs := (C5_compose_sound_and_characterized (.insert c5He) (.insert c5Llo)).1
      (.insert c5Hello) ([] : Str) (by decide)
      (show (0 : Int) ≤ 0 by decide) (show (0 : Int) ≤ 2 by decide)
      (show (0 : Int) ≤ 0 ∧ (0 : Int) ≤ (0 : Int) by decide)
    exact hs
  · exact ((C5_compose_sound_and_characterized (.insert c5He) (.insert c5Llo)).2
      (.insert c5Hello)).mpr
      (Or.inl ⟨c5He, c5Llo, rfl, rfl, by decide, by decide, by decide⟩)

theorem replayOps_append (ops : List StampedOp) (st : StampedOp) :
    replayOps (ops ++ [st]) = applyServer (replayOps ops) st.op := by
  unfold replayOps
  rw [List.foldl_append]
  rfl

theorem mapInvariant_addUser {m : DocMap} (hm : mapInvariant m)
    (documentId socketId name color : String) :
    mapInvariant (addUser m documentId socketId name color).1 :=
  mapInvariant_setDocument (getDocument_invariant hm documentId).1
    (docInvariant_users_update _ _ (getDocument_invariant hm documentId).2)

theorem docInvariant_commit (doc : ServerDoc) (op : Operation) (now : Int)
    (h : docInvariant doc) :
    docInvariant { doc with
      content := applyServer doc.content op,
      version := doc.version + 1,
      operations := doc.operations ++
        [{ op := op, serverVersion := doc.version + 1, serverTimestamp := now }] } := by
  obtain ⟨hver, hrep⟩ := h
  constructor
  · dsimp only
    rw [hver]
    simp [List.length_append]
  · dsimp only
    rw [replayOps_append, hrep]

/-- C8: the data-model invariant — each document's version equals the length
of its operation log, and replaying the log in order from the empty string
yields its content — holds for every document in the map and is preserved by
all four relay message handlers: join-document, operation, cursor-position,
and disconnect. -/
theorem C8_handlers_preserve_invariant (conn : ConnState) (documents : DocMap)
    (h : mapInvariant documents) :
    (∀ documentId name color,
      mapInvariant (handleJoinDocument conn documents documentId name color).2.1) ∧
    (∀ now op, mapInvariant (handleOperation conn documents now op).1) ∧
    (∀ position, mapInvariant (handleCursorPosition conn documents position).1) ∧
    mapInvariant (handleDisconnect conn documents).1 := by
  refine ⟨?_, ?_, ?_, ?_⟩
  · intro documentId name color
    unfold handleJoinDocument
    cases hcd : conn.currentDocumentId with
    | none => exact mapInvariant_addUser h documentId conn.socketId name color
    | some prev =>
      exact mapInvariant_addUser (mapInvariant_removeUser h prev conn.socketId)
        documentId conn.socketId name color
  · intro now op
    unfold handleOperation
    cases hcd : conn.currentDocumentId with
    | none => exact h
    | some documentId =>
      exact mapInvariant_setDocument (getDocument_invariant h documentId).1
        (docInvariant_commit _ op now (getDocument_invariant h documentId).2)
  · intro position
    unfold handleCursorPosition
    split
    · dsimp only
      split
      · exact (getDocument_invariant h _).1
      · exact mapInvariant_setDocument (getDocument_invariant h _).1
          (docInvariant_users_update _ _ (getDocument_invariant h _).2)
    · exact h
  · unfold handleDisconnect
    cases hcd : conn.currentDocumentId with
    | none => exact h
    | some documentId => exact mapInvariant_removeUser h documentId conn.socketId

/-- C8 witness: the preservation theorem applied to a concrete joined
connection and the empty document map (whose invariant holds vacuously),
for the operation and disconnect handlers. -/
theorem C8_handlers_preserve_invariant_witness :
    mapInvariant (handleOperation c3Conn [] 3 (.insert c4InsertA)).1 ∧
    mapInvariant (handleDisconnect c3Conn []).1 := by
  constructor
  · exact (C8_handlers_preserve_invariant c3Conn []
      (by intro p hp; cases hp)).2.1 3 (.insert c4InsertA)
  · exact (C8_handlers_preserve_invariant c3Conn []
      (by intro p hp; cases hp)).2.2.2

end OT
